import Mathlib

/-!
Shallow embedding of the ThunderDB transactional replication plane, as found in
the repository sources:

* `storage` package (`Storage.Prepare` / `Commit` / `Rollback`, `TxID`, `ExecLog`);
* `sqlchain` package (`blockNode`, `newBlockNode`, `ancestor`, `indexKey`);
* `kayak` package's mock transport receive loop (`MockTransport.sendRequest`);
* the `twopc` coordinator `Put` (its implementation file is absent from the
  sources at hand; it is modelled from the specification, see below).

Go's `error` values are modelled by `Option GoErr` (`none` = `nil`), the
`database/sql` side effects by an explicit oracle `DBEnv` plus an event trace
`List DBEvent`, and machine integers by `Nat`/`Int` with explicit reduction
modulo `2 ^ 32` where the Go code converts to `uint32`.
-/

namespace ThunderDB

/-! ## storage package: data model -/

/-- The `TxID` struct from the storage package: ConnectionID, SeqNo, Timestamp, all `uint64`.
Only equality of the components matters to the modelled code, so the fields are `Nat`. -/
structure TxID where
  connectionID : Nat
  seqNo : Nat
  timestamp : Nat
deriving DecidableEq, Repr

/-- Function `equalTxID` from the storage package: componentwise equality. -/
def equalTxID (x y : TxID) : Bool :=
  x.connectionID == y.connectionID && x.seqNo == y.seqNo && x.timestamp == y.timestamp

/-- The `ExecLog` batch from the storage package: a TxID triple plus ordered SQL statements. -/
structure ExecLog where
  connectionID : Nat
  seqNo : Nat
  timestamp : Nat
  queries : List String
deriving DecidableEq, Repr

/-- The TxID value built from an incoming `ExecLog`, as the storage methods do
from its ConnectionID, SeqNo and Timestamp fields. -/
def ExecLog.txID (el : ExecLog) : TxID :=
  ⟨el.connectionID, el.seqNo, el.timestamp⟩

/-- Errors returned by the storage phase methods.  `dbErr` stands for an opaque
error produced by `database/sql` (from `BeginTx` or `ExecContext`). -/
inductive GoErr where
  | unexpectedBatchType
  | inconsistentState (id : TxID)
  | txNotPrepared
  | dbErr (msg : String)
deriving DecidableEq, Repr

/-- Mutable state of `Storage`: the current `*sql.Tx` handle (`none` = Go `nil`,
`some t` = an open transaction handle identified by `t`), the current `TxID`,
and the buffered statements (Go `nil` slice = `[]`). -/
structure Storage where
  tx : Option Nat
  id : TxID
  queries : List String
deriving DecidableEq, Repr

/-- Observable calls the storage methods make on the underlying database. -/
inductive DBEvent where
  | evBeginTx
  | evExec (tx : Nat) (q : String)
  | evTxRollback (tx : Nat)
  | evTxCommit (tx : Nat)
deriving DecidableEq, Repr

/-- Oracle for the `database/sql` layer: the outcome of `db.BeginTx` (an error, or a
fresh transaction handle), of `tx.ExecContext` on a given handle and statement
(`none` = success), and of `tx.Rollback` (whose result the storage code ignores). -/
structure DBEnv where
  beginTx : Except GoErr Nat
  exec : Nat → String → Option GoErr
  rollbackErr : Nat → Option GoErr

/-! ## storage package: phase methods

Each method returns the new `Storage` state, the trace of database calls it made,
and the Go `error` result.  The methods are modelled for batches that already are
`*ExecLog`; the initial dynamic type check of the Go code (returning
`unexpected WriteBatch type` otherwise) is outside the statements below, which
all quantify over `ExecLog` batches. -/

/-- Method `Storage.Prepare` from the storage package.  If a transaction is open:
matching TxID replaces the buffered statements, otherwise an inconsistent-state
error.  If none is open: begin one; on success record TxID and statements. -/
def Storage.prepare (env : DBEnv) (s : Storage) (el : ExecLog) :
    Storage × List DBEvent × Option GoErr :=
  match s.tx with
  | some _ =>
    if equalTxID s.id el.txID then
      ({ s with queries := el.queries }, [], none)
    else
      (s, [], some (.inconsistentState s.id))
  | none =>
    match env.beginTx with
    | .error e => (s, [.evBeginTx], some e)
    | .ok t => (⟨some t, el.txID, el.queries⟩, [.evBeginTx], none)

/-- One pass of the `for _, q := range s.queries` loop in `Storage.Commit`:
execute the statements in order, stopping at the first error. -/
def execQueries (env : DBEnv) (t : Nat) : List String → List DBEvent × Option GoErr
  | [] => ([], none)
  | q :: rest =>
    match env.exec t q with
    | some e => ([.evExec t q], some e)
    | none =>
      let r := execQueries env t rest
      (.evExec t q :: r.1, r.2)

/-- Method `Storage.Commit` from the storage package.  With an open transaction and a
matching TxID it executes the buffered statements in order; the first statement
error triggers `tx.Rollback()`, clears `tx` and `queries`, and is returned.
When every statement succeeds the method returns `nil` — without calling
`tx.Commit()` and without clearing `tx` or `queries` (exactly as the source does). -/
def Storage.commit (env : DBEnv) (s : Storage) (el : ExecLog) :
    Storage × List DBEvent × Option GoErr :=
  match s.tx with
  | some t =>
    if equalTxID s.id el.txID then
      match execQueries env t s.queries with
      | (evs, some e) =>
        let _ := env.rollbackErr t
        ({ s with tx := none, queries := [] }, evs ++ [.evTxRollback t], some e)
      | (evs, none) => (s, evs, none)
    else
      (s, [], some (.inconsistentState s.id))
  | none => (s, [], some .txNotPrepared)

/-- Method `Storage.Rollback` from the storage package.  The TxID check comes first:
a mismatch is an inconsistent-state error even when no transaction is open.
On a match, an open transaction is rolled back (its `Rollback` error discarded)
and the handle and buffered statements are cleared; with none open it is a no-op. -/
def Storage.rollback (env : DBEnv) (s : Storage) (el : ExecLog) :
    Storage × List DBEvent × Option GoErr :=
  if equalTxID s.id el.txID then
    match s.tx with
    | some t =>
      let _ := env.rollbackErr t
      ({ s with tx := none, queries := [] }, [.evTxRollback t], none)
    | none => (s, [], none)
  else
    (s, [], some (.inconsistentState s.id))

/-! ## sqlchain package: block index

`blockNode` holds a hash, an `int32` height (modelled by `Int`), and a parent
pointer that is either Go `nil` or another node; the pointer structure is
encoded by the two constructors below.  Hashes are `hash.Hash`, a fixed-size
byte array, modelled as `List Nat` of length `HashSize`. -/

/-- Constant `hash.HashSize` of the repository's crypto/hash package (a SHA-256 hash):
32 bytes.  The package itself is not among the sources at hand; only the size
of the fixed-size `hash.Hash` array matters here. -/
def HashSize : Nat := 32

/-- The `blockNode` struct from the sqlchain package: `root` is a node whose `parent`
pointer is Go `nil`, `node` one with a parent. -/
inductive BlockNode where
  | root (hash : List Nat) (height : Int)
  | node (hash : List Nat) (height : Int) (parent : BlockNode)
deriving DecidableEq, Repr

/-- The `hash` field of a `blockNode`. -/
def BlockNode.hash : BlockNode → List Nat
  | .root h _ => h
  | .node h _ _ => h

/-- The `height` field of a `blockNode`. -/
def BlockNode.height : BlockNode → Int
  | .root _ ht => ht
  | .node _ ht _ => ht

/-- The `parent` field of a `blockNode` (`none` = Go `nil`). -/
def BlockNode.parent : BlockNode → Option BlockNode
  | .root _ _ => none
  | .node _ _ p => some p

/-- Constructor `newBlockNode` from the sqlchain package: without a parent the node gets
height 0 and a nil parent; with a parent it gets `parent.height + 1`. -/
def newBlockNode (blockHash : List Nat) (parent : Option BlockNode) : BlockNode :=
  match parent with
  | none => .root blockHash 0
  | some p => .node blockHash (p.height + 1) p

/-- Each node's height is its parent's height plus one, down to a genesis of
height 0 with a nil parent (the chain shape `newBlockNode` constructs). -/
def BlockNode.wellFormed : BlockNode → Bool
  | .root _ ht => ht == 0
  | .node _ ht p => ht == p.height + 1 && p.wellFormed

/-- The `for ancestor != nil && ancestor.height != height` walk inside
`blockNode.ancestor`, entered at a non-nil node: stop at the first node of the
given height, return Go `nil` when the chain runs out. -/
def BlockNode.ancLoop (h : Int) : BlockNode → Option BlockNode
  | .root hs ht => if ht == h then some (.root hs ht) else none
  | .node hs ht p => if ht == h then some (.node hs ht p) else p.ancLoop h

/-- Method `blockNode.ancestor` from the sqlchain package: `nil` when the height is
negative or above the node's own height, otherwise the parent walk. -/
def BlockNode.ancestor (bn : BlockNode) (h : Int) : Option BlockNode :=
  if h < 0 || h > bn.height then none else bn.ancLoop h

/-- The four big-endian bytes of a `uint32`, as `binary.BigEndian.PutUint32` writes them. -/
def beUint32 (v : Nat) : List Nat :=
  [v / 2 ^ 24 % 256, v / 2 ^ 16 % 256, v / 2 ^ 8 % 256, v % 256]

/-- Go `copy(dst[lo:hi], src)`: overwrite `dst` from position `lo` with
`min (hi - lo) src.length` bytes of `src`, leaving the rest unchanged. -/
def copyInto (dst : List Nat) (lo hi : Nat) (src : List Nat) : List Nat :=
  dst.take lo ++ src.take (hi - lo) ++ dst.drop (lo + (src.take (hi - lo)).length)

/-- Method `blockNode.indexKey` from the sqlchain package: a fresh `HashSize + 4` zero
buffer, the height as a big-endian `uint32` in bytes 0..3 (Go's
`uint32(bn.height)` conversion is `int32` reduction modulo `2 ^ 32`), and the
hash copied into bytes `4..HashSize` — which truncates it to `HashSize - 4`
bytes and leaves the last four buffer bytes zero. -/
def BlockNode.indexKey (bn : BlockNode) : List Nat :=
  let buf := List.replicate (HashSize + 4) 0
  let buf := copyInto buf 0 4 (beUint32 (bn.height % (2 ^ 32 : Int)).toNat)
  copyInto buf 4 HashSize bn.hash

/-! ## kayak package: mock transport receive loop

`MockTransport.sendRequest` enqueues its request and then loops on a `select`
over the caller's cancellation token and the transport's shared `waitQueue`
channel.  One iteration of that loop is modelled as a step function on the
channel contents (a FIFO list) and the `giveUp` set (a duplicate-free list of
response IDs); the concurrent channel operations themselves are outside the
model. -/

/-- The `MockResponse` struct from the kayak mock transport; the dynamically
typed payload is opaque and modelled by `Nat`, the Go `error` by `Option String`. -/
structure MockResponse where
  responseID : Nat
  payload : Nat
  error : Option String
deriving DecidableEq, Repr

/-- The shared per-transport state `sendRequest` reads and writes: the
`waitQueue` channel contents (front of the list = next received) and the
`giveUp` set. -/
structure TransportState where
  waitQueue : List MockResponse
  giveUp : List Nat
deriving DecidableEq, Repr

/-- Go `m.giveUp[id] = true`: insert into the set. -/
def giveUpInsert (id : Nat) (s : List Nat) : List Nat :=
  if s.contains id then s else id :: s

/-- Which arm of the `select` fires in one loop iteration. -/
inductive LoopEvent where
  | ctxDone (err : String)
  | recv
deriving DecidableEq, Repr

/-- What one loop iteration does besides updating the state. -/
inductive StepOutcome where
  | ret (payload : Option Nat) (error : Option String)
  | cont
deriving DecidableEq, Repr

/-- One iteration of the for-select loop of
`MockTransport.sendRequest`, for the caller holding `reqID`.  Cancellation marks
`reqID` as given up and returns `(nil, ctx.Err())`.  A received response with a
foreign ID is pushed back onto `waitQueue` unless its ID is in the give-up set,
in which case it is dropped and its ID removed from the set; a matching ID is
returned to the caller. -/
def sendRequestStep (reqID : Nat) (st : TransportState) (ev : LoopEvent) :
    TransportState × StepOutcome :=
  match ev with
  | .ctxDone e => ({ st with giveUp := giveUpInsert reqID st.giveUp }, .ret none (some e))
  | .recv =>
    match st.waitQueue with
    | [] => (st, .cont)
    | res :: rest =>
      if res.responseID != reqID then
        if !st.giveUp.contains res.responseID then
          ({ st with waitQueue := rest ++ [res] }, .cont)
        else
          (⟨rest, st.giveUp.erase res.responseID⟩, .cont)
      else
        ({ st with waitQueue := rest }, .ret (some res.payload) res.error)

/-! ## twopc package: coordinator

The coordinator implementation file (`Coordinator.Put`) is not among the
sources at hand; only its tests are.  The model below follows the
specification's algorithm for `Put`. -/

/-- A 2PC worker as the coordinator sees it in one `Put`: the Go `error` each
phase call would return (`none` = success). -/
structure TPCWorker where
  prepareRes : Option GoErr
  commitRes : Option GoErr
  rollbackRes : Option GoErr
deriving DecidableEq, Repr

/-- Modelled from the spec: the coordinator `Options` hooks.  Each hook is
either unconfigured (`none`) or configured with the error it returns on this
call (`some r`, where `r = none` means the hook succeeds). -/
structure TPCHooks where
  beforePrepare : Option (Option GoErr)
  beforeCommit : Option (Option GoErr)
  beforeRollback : Option (Option GoErr)
deriving DecidableEq, Repr

/-- Invoke an optional hook: an unconfigured hook succeeds. -/
def runHook : Option (Option GoErr) → Option GoErr
  | none => none
  | some r => r

/-- Phase calls the coordinator dispatches to worker number `i`. -/
inductive TPCEvent where
  | prepare (i : Nat)
  | commit (i : Nat)
  | rollback (i : Nat)
deriving DecidableEq, Repr

/-- The first error in a list of per-worker results. -/
def firstErr : List (Option GoErr) → Option GoErr
  | [] => none
  | some e :: _ => some e
  | none :: rest => firstErr rest

/-- Modelled from the spec: `Coordinator.Put` (the twopc coordinator source is
absent).  Derive a context; run `beforePrepare`, aborting on its error before
contacting workers; dispatch `Prepare` to all workers; on any prepare error run
`beforeRollback` (its error not surfaced), dispatch `Rollback` to all workers
(errors not surfaced), and return the first prepare error; otherwise run
`beforeCommit`, on its error roll back likewise and return the hook error;
otherwise dispatch `Commit` to all workers, on any commit error roll back and
return the first commit error; otherwise return success.  The parallel fan-out
is modelled as dispatch in worker-list order. -/
def put (hooks : TPCHooks) (workers : List TPCWorker) : Option GoErr × List TPCEvent :=
  match runHook hooks.beforePrepare with
  | some e => (some e, [])
  | none =>
    let prepEvs := (List.range workers.length).map TPCEvent.prepare
    let rollEvs := (List.range workers.length).map TPCEvent.rollback
    match firstErr (workers.map (·.prepareRes)) with
    | some e =>
      let _ := runHook hooks.beforeRollback
      let _ := workers.map (·.rollbackRes)
      (some e, prepEvs ++ rollEvs)
    | none =>
      match runHook hooks.beforeCommit with
      | some e =>
        let _ := runHook hooks.beforeRollback
        let _ := workers.map (·.rollbackRes)
        (some e, prepEvs ++ rollEvs)
      | none =>
        let commitEvs := (List.range workers.length).map TPCEvent.commit
        match firstErr (workers.map (·.commitRes)) with
        | some e =>
          let _ := runHook hooks.beforeRollback
          let _ := workers.map (·.rollbackRes)
          (some e, prepEvs ++ commitEvs ++ rollEvs)
        | none => (none, prepEvs ++ commitEvs)

/-! ## Concrete fixtures for witnesses -/

/-- A database oracle on which every call succeeds; `BeginTx` yields handle 1. -/
def dbEnvOK : DBEnv := ⟨.ok 1, fun _ _ => none, fun _ => none⟩

/-- A database oracle on which the statement `"BAD"` fails and `tx.Rollback`
also reports an error (which the storage code discards). -/
def dbEnvFail : DBEnv :=
  ⟨.ok 1,
   fun _ q => if q = "BAD" then some (.dbErr "syntax error") else none,
   fun _ => some (.dbErr "rollback failed")⟩

/-- Hooks where `beforeCommit` and `beforeRollback` are configured to fail. -/
def hooksBC : TPCHooks :=
  ⟨none, some (some (.dbErr "before commit error")),
   some (some (.dbErr "before rollback error"))⟩

/-- Two workers whose phases all succeed apart from a failing rollback on the
first, which `Put` must not surface. -/
def workersOK : List TPCWorker :=
  [⟨none, none, some (.dbErr "rollback failed")⟩, ⟨none, none, none⟩]

/-- A three-node well-formed chain: genesis at height 0. -/
def chain0 : BlockNode := .root (List.replicate HashSize 7) 0

/-- Height-1 child of `chain0`, built by `newBlockNode`. -/
def chain1 : BlockNode := newBlockNode (List.replicate HashSize 8) (some chain0)

/-- Height-2 child of `chain1`, built by `newBlockNode`. -/
def chain2 : BlockNode := newBlockNode (List.replicate HashSize 9) (some chain1)

end ThunderDB

namespace ThunderDB

/-! ## Theorems: storage package -/

/-- C2: `Storage.Prepare` is a three-way case split.  With no open transaction it
begins one on the database, records the incoming TxID and statements, and
succeeds (shown when `BeginTx` yields a handle; the additional conjunct shows a
`BeginTx` failure is propagated with the state unchanged).  With an open
transaction of equal TxID it replaces the buffered statements and succeeds.
Otherwise it fails with an inconsistent-state error carrying the current TxID. -/
theorem prepare_case_split (env : DBEnv) (s : Storage) (el : ExecLog) :
    (∀ t, s.tx = none → env.beginTx = .ok t →
      Storage.prepare env s el = (⟨some t, el.txID, el.queries⟩, [.evBeginTx], none)) ∧
    (∀ e, s.tx = none → env.beginTx = .error e →
      Storage.prepare env s el = (s, [.evBeginTx], some e)) ∧
    (∀ t, s.tx = some t → equalTxID s.id el.txID = true →
      Storage.prepare env s el = ({ s with queries := el.queries }, [], none)) ∧
    (∀ t, s.tx = some t → equalTxID s.id el.txID = false →
      Storage.prepare env s el = (s, [], some (.inconsistentState s.id))) := by
  refine ⟨fun t htx hb => ?_, fun e htx hb => ?_, fun t htx hid => ?_, fun t htx hid => ?_⟩
  · simp [Storage.prepare, htx, hb]
  · simp [Storage.prepare, htx, hb]
  · simp [Storage.prepare, htx, hid]
  · simp [Storage.prepare, htx, hid]

/-- Witness for C2, first branch: a fresh storage prepared with a concrete batch. -/
theorem prepare_case_split_witness :
    (⟨none, ⟨0, 0, 0⟩, []⟩ : Storage).tx = none ∧ dbEnvOK.beginTx = .ok 1 ∧
    Storage.prepare dbEnvOK ⟨none, ⟨0, 0, 0⟩, []⟩ ⟨1, 2, 3, ["CREATE TABLE t(x)"]⟩ =
      (⟨some 1, ⟨1, 2, 3⟩, ["CREATE TABLE t(x)"]⟩, [.evBeginTx], none) :=
  ⟨rfl, rfl,
   (prepare_case_split dbEnvOK ⟨none, ⟨0, 0, 0⟩, []⟩ ⟨1, 2, 3, ["CREATE TABLE t(x)"]⟩).1
     1 rfl rfl⟩

/-- Helper: executing `qs₁ ++ q :: qs₂` when every statement of `qs₁` succeeds
and `q` fails executes exactly `qs₁` then `q` and stops with `q`'s error. -/
theorem execQueries_first_fail (env : DBEnv) (t : Nat) (qs₁ : List String)
    (q : String) (qs₂ : List String) (e : GoErr)
    (hok : ∀ p ∈ qs₁, env.exec t p = none) (hfail : env.exec t q = some e) :
    execQueries env t (qs₁ ++ q :: qs₂) =
      (qs₁.map (DBEvent.evExec t) ++ [.evExec t q], some e) := by
  induction qs₁ with
  | nil => simp [execQueries, hfail]
  | cons p ps ih =>
    have hp : env.exec t p = none := hok p (by simp)
    have ihe := ih (fun r hr => hok r (by simp [hr]))
    simp [execQueries, hp, ihe]

/-- Helper: executing a list of statements that all succeed records one exec
event per statement in order and returns no error. -/
theorem execQueries_all_ok (env : DBEnv) (t : Nat) (qs : List String)
    (hok : ∀ p ∈ qs, env.exec t p = none) :
    execQueries env t qs = (qs.map (DBEvent.evExec t), none) := by
  induction qs with
  | nil => simp [execQueries]
  | cons p ps ih =>
    have hp : env.exec t p = none := hok p (by simp)
    have ihe := ih (fun r hr => hok r (by simp [hr]))
    simp [execQueries, hp, ihe]

/-- C3: with an open transaction and a matching TxID, `Storage.Commit` executes
the buffered statements in list order; at the first failing statement it calls
`tx.Rollback`, clears the transaction handle and the buffered statements, and
returns that statement's error. -/
theorem commit_first_error (env : DBEnv) (s : Storage) (el : ExecLog) (t : Nat)
    (qs₁ : List String) (q : String) (qs₂ : List String) (e : GoErr)
    (htx : s.tx = some t) (hid : equalTxID s.id el.txID = true)
    (hqs : s.queries = qs₁ ++ q :: qs₂)
    (hok : ∀ p ∈ qs₁, env.exec t p = none) (hfail : env.exec t q = some e) :
    Storage.commit env s el =
      ({ s with tx := none, queries := [] },
       (qs₁.map (DBEvent.evExec t) ++ [.evExec t q]) ++ [.evTxRollback t], some e) := by
  have hexec := execQueries_first_fail env t qs₁ q qs₂ e hok hfail
  simp [Storage.commit, htx, hid, hqs, hexec]

/-- Witness for C3: the second of three buffered statements fails; the first two
are executed, the transaction is rolled back and cleared, and the statement's
error is surfaced. -/
theorem commit_first_error_witness :
    (⟨some 1, ⟨1, 2, 3⟩, ["OK1", "BAD", "OK2"]⟩ : Storage).tx = some 1 ∧
    Storage.commit dbEnvFail ⟨some 1, ⟨1, 2, 3⟩, ["OK1", "BAD", "OK2"]⟩ ⟨1, 2, 3, []⟩ =
      (⟨none, ⟨1, 2, 3⟩, []⟩,
       [.evExec 1 "OK1", .evExec 1 "BAD", .evTxRollback 1], some (.dbErr "syntax error")) :=
  ⟨rfl,
   commit_first_error dbEnvFail ⟨some 1, ⟨1, 2, 3⟩, ["OK1", "BAD", "OK2"]⟩ ⟨1, 2, 3, []⟩ 1
     ["OK1"] "BAD" ["OK2"] (.dbErr "syntax error") rfl rfl rfl
     (by intro p hp; simp at hp; simp [dbEnvFail, hp]) (by simp [dbEnvFail])⟩

/-- Helper: the general success path of `Storage.Commit` — with an open
transaction, a matching TxID and every buffered statement succeeding, the
method returns `nil`, the trace holds exactly the statement executions in
order (in particular no `tx.Commit` and no `tx.Rollback` call), and the
storage state is returned unchanged, transaction handle and buffer included. -/
theorem commit_all_ok (env : DBEnv) (s : Storage) (el : ExecLog) (t : Nat)
    (htx : s.tx = some t) (hid : equalTxID s.id el.txID = true)
    (hok : ∀ p ∈ s.queries, env.exec t p = none) :
    Storage.commit env s el = (s, s.queries.map (DBEvent.evExec t), none) := by
  simp [Storage.commit, htx, hid, execQueries_all_ok env t s.queries hok]

/-- C1 (code-bug exhibit): with an open transaction, a matching TxID, and every
buffered statement succeeding, `Storage.Commit` returns `nil` but the database
trace contains no `tx.Commit` call — only the statement executions — and the
transaction handle and buffered statements are left in place, not cleared. -/
theorem commit_success_no_db_commit :
    Storage.commit dbEnvOK ⟨some 1, ⟨1, 2, 3⟩, ["INSERT INTO t VALUES(1)"]⟩ ⟨1, 2, 3, []⟩ =
      (⟨some 1, ⟨1, 2, 3⟩, ["INSERT INTO t VALUES(1)"]⟩,
       [.evExec 1 "INSERT INTO t VALUES(1)"], none) := by
  rfl

/-- C9: whenever `Storage.Prepare` or `Storage.Commit` hits a TxID mismatch
against an open transaction, it returns the inconsistent-state error and the
storage state — transaction handle, stored TxID and buffered statements — is
returned exactly as it was. -/
theorem inconsistent_state_frame (env : DBEnv) (s : Storage) (el : ExecLog) (t : Nat)
    (htx : s.tx = some t) (hid : equalTxID s.id el.txID = false) :
    Storage.prepare env s el = (s, [], some (.inconsistentState s.id)) ∧
    Storage.commit env s el = (s, [], some (.inconsistentState s.id)) := by
  constructor <;> simp [Storage.prepare, Storage.commit, htx, hid]

/-- Witness for C9: a storage holding TxID (1,2,3) receives a batch for (9,9,9). -/
theorem inconsistent_state_frame_witness :
    (⟨some 1, ⟨1, 2, 3⟩, ["Q"]⟩ : Storage).tx = some 1 ∧
    equalTxID ⟨1, 2, 3⟩ (ExecLog.txID ⟨9, 9, 9, []⟩) = false ∧
    Storage.prepare dbEnvOK ⟨some 1, ⟨1, 2, 3⟩, ["Q"]⟩ ⟨9, 9, 9, []⟩ =
      (⟨some 1, ⟨1, 2, 3⟩, ["Q"]⟩, [], some (.inconsistentState ⟨1, 2, 3⟩)) ∧
    Storage.commit dbEnvOK ⟨some 1, ⟨1, 2, 3⟩, ["Q"]⟩ ⟨9, 9, 9, []⟩ =
      (⟨some 1, ⟨1, 2, 3⟩, ["Q"]⟩, [], some (.inconsistentState ⟨1, 2, 3⟩)) :=
  ⟨rfl, rfl,
   (inconsistent_state_frame dbEnvOK ⟨some 1, ⟨1, 2, 3⟩, ["Q"]⟩ ⟨9, 9, 9, []⟩ 1 rfl rfl).1,
   (inconsistent_state_frame dbEnvOK ⟨some 1, ⟨1, 2, 3⟩, ["Q"]⟩ ⟨9, 9, 9, []⟩ 1 rfl rfl).2⟩

/-- C10: with an open transaction and a matching TxID, `Storage.Rollback`
succeeds for every database oracle — in particular whatever error `tx.Rollback`
reports is discarded — and the transaction handle and buffered statements are
cleared regardless. -/
theorem rollback_discards_db_error (env : DBEnv) (s : Storage) (el : ExecLog) (t : Nat)
    (htx : s.tx = some t) (hid : equalTxID s.id el.txID = true) :
    Storage.rollback env s el =
      ({ s with tx := none, queries := [] }, [.evTxRollback t], none) := by
  simp [Storage.rollback, htx, hid]

/-- Witness for C10: an oracle whose `tx.Rollback` reports an error; the call
still succeeds and clears the state. -/
theorem rollback_discards_db_error_witness :
    dbEnvFail.rollbackErr 1 = some (.dbErr "rollback failed") ∧
    Storage.rollback dbEnvFail ⟨some 1, ⟨1, 2, 3⟩, ["Q"]⟩ ⟨1, 2, 3, []⟩ =
      (⟨none, ⟨1, 2, 3⟩, []⟩, [.evTxRollback 1], none) :=
  ⟨rfl,
   rollback_discards_db_error dbEnvFail ⟨some 1, ⟨1, 2, 3⟩, ["Q"]⟩ ⟨1, 2, 3, []⟩ 1 rfl rfl⟩

/-- C4 counterexample: with no transaction open (fresh storage, stored TxID
(0,0,0)) a `Rollback` for TxID (1,0,0) is not a successful no-op: it returns an
inconsistent-state error, because the TxID check precedes the open-transaction
check. -/
theorem rollback_no_tx_mismatch_errors :
    Storage.rollback dbEnvOK ⟨none, ⟨0, 0, 0⟩, []⟩ ⟨1, 0, 0, []⟩ =
      (⟨none, ⟨0, 0, 0⟩, []⟩, [], some (.inconsistentState ⟨0, 0, 0⟩)) := by
  rfl

/-- C4 amended: `Storage.Rollback` returns success as a no-op when no
transaction is open only if the batch's TxID equals the stored TxID; on any
TxID mismatch (transaction open or not) it returns an inconsistent-state error;
with an open transaction and matching TxID it rolls back and clears the
transaction handle and buffered statements. -/
theorem rollback_cases (env : DBEnv) (s : Storage) (el : ExecLog) :
    (s.tx = none → equalTxID s.id el.txID = true →
      Storage.rollback env s el = (s, [], none)) ∧
    (equalTxID s.id el.txID = false →
      Storage.rollback env s el = (s, [], some (.inconsistentState s.id))) ∧
    (∀ t, s.tx = some t → equalTxID s.id el.txID = true →
      Storage.rollback env s el =
        ({ s with tx := none, queries := [] }, [.evTxRollback t], none)) := by
  refine ⟨fun htx hid => ?_, fun hid => ?_, fun t htx hid => ?_⟩
  · simp [Storage.rollback, htx, hid]
  · simp [Storage.rollback, hid]
  · simp [Storage.rollback, htx, hid]

/-- Witness for C4 (amended), no-transaction branch: a fresh storage rolled back
with the matching zero TxID is a successful no-op. -/
theorem rollback_cases_witness :
    (⟨none, ⟨0, 0, 0⟩, []⟩ : Storage).tx = none ∧
    equalTxID ⟨0, 0, 0⟩ (ExecLog.txID ⟨0, 0, 0, []⟩) = true ∧
    Storage.rollback dbEnvOK ⟨none, ⟨0, 0, 0⟩, []⟩ ⟨0, 0, 0, []⟩ =
      (⟨none, ⟨0, 0, 0⟩, []⟩, [], none) :=
  ⟨rfl, rfl, (rollback_cases dbEnvOK ⟨none, ⟨0, 0, 0⟩, []⟩ ⟨0, 0, 0, []⟩).1 rfl rfl⟩

/-! ## Theorems: sqlchain block index -/

/-- Helper: in a well-formed chain every node's height is nonnegative. -/
theorem wellFormed_height_nonneg (n : BlockNode) :
    n.wellFormed = true → 0 ≤ n.height := by
  induction n with
  | root hs ht =>
    intro hwf
    simp only [BlockNode.wellFormed, beq_iff_eq] at hwf
    simp [BlockNode.height, hwf]
  | node hs ht p ih =>
    intro hwf
    simp only [BlockNode.wellFormed, Bool.and_eq_true, beq_iff_eq] at hwf
    have hp := ih hwf.2
    simp only [BlockNode.height] at *
    omega

/-- Helper: the parent walk of `blockNode.ancestor`, entered at a well-formed
node whose height bounds the target from above, reaches a node of exactly the
target height. -/
theorem ancLoop_finds (h : Int) (n : BlockNode) :
    n.wellFormed = true → 0 ≤ h → h ≤ n.height →
    ∃ a, n.ancLoop h = some a ∧ a.height = h := by
  induction n with
  | root hs ht =>
    intro hwf h0 hle
    simp only [BlockNode.wellFormed, beq_iff_eq] at hwf
    simp only [BlockNode.height] at hle
    have hh : ht = h := by omega
    exact ⟨.root hs ht, by simp [BlockNode.ancLoop, hh], by simp [BlockNode.height, hh]⟩
  | node hs ht p ih =>
    intro hwf h0 hle
    simp only [BlockNode.wellFormed, Bool.and_eq_true, beq_iff_eq] at hwf
    by_cases hc : ht = h
    · exact ⟨.node hs ht p, by simp [BlockNode.ancLoop, hc], by simp [BlockNode.height, hc]⟩
    · have hle' : h ≤ p.height := by
        simp only [BlockNode.height] at hle
        omega
      obtain ⟨a, ha1, ha2⟩ := ih hwf.2 h0 hle'
      exact ⟨a, by simp [BlockNode.ancLoop, hc, ha1], ha2⟩

/-- C6: on a well-formed chain (each node's height is its parent's plus one,
genesis at height 0 with nil parent), `blockNode.ancestor` returns `nil` for a
height below 0 or above the node's own, and for every height in range it
returns a node of exactly that height. -/
theorem ancestor_spec (n : BlockNode) (hwf : n.wellFormed = true) (h : Int) :
    ((h < 0 ∨ n.height < h) → n.ancestor h = none) ∧
    (0 ≤ h → h ≤ n.height → ∃ a, n.ancestor h = some a ∧ a.height = h) := by
  constructor
  · intro hr
    have hcond : (h < 0 || h > n.height) = true := by
      rcases hr with hr | hr <;> simp [hr]
    simp [BlockNode.ancestor, hcond]
  · intro h0 hle
    have hcond : (h < 0 || h > n.height) = false := by
      simp only [Bool.or_eq_false_iff, decide_eq_false_iff_not, not_lt]
      omega
    obtain ⟨a, ha1, ha2⟩ := ancLoop_finds h n hwf h0 hle
    exact ⟨a, by simp [BlockNode.ancestor, hcond, ha1], ha2⟩

/-- Witness for C6: on the three-node chain the ancestor at height 1 exists and
has height 1, and the ancestor at height 3 (above the tip) is absent. -/
theorem ancestor_spec_witness :
    chain2.wellFormed = true ∧
    (∃ a, chain2.ancestor 1 = some a ∧ a.height = 1) ∧
    chain2.ancestor 3 = none :=
  ⟨by decide,
   (ancestor_spec chain2 (by decide) 1).2 (by decide) (by decide),
   (ancestor_spec chain2 (by decide) 3).1 (by decide)⟩

/-- Helper: the exact value `blockNode.indexKey` computes for a full-size hash:
the four big-endian bytes of the height as a `uint32`, the first
`HashSize - 4` hash bytes, and four zero bytes left over at the end of the
buffer. -/
theorem indexKey_eq (bn : BlockNode) (hlen : bn.hash.length = HashSize) :
    bn.indexKey =
      beUint32 (bn.height % (2 ^ 32 : Int)).toNat ++ bn.hash.take (HashSize - 4)
        ++ List.replicate 4 0 := by
  simp only [BlockNode.indexKey, copyInto, HashSize] at *
  simp only [List.take_zero, List.nil_append, Nat.zero_add, beUint32,
    List.length_cons, List.length_nil]
  norm_num
  simp [hlen, List.drop_replicate]

/-- C7: for a node with a nonnegative height below `2 ^ 32` (any `int32` height
valid in a chain), `indexKey` is `HashSize + 4` bytes wide, its first 4 bytes
are the height in big-endian `uint32` form, and the following `HashSize - 4`
bytes are the first `HashSize - 4` bytes of the block hash. -/
theorem indexKey_layout (bn : BlockNode) (hlen : bn.hash.length = HashSize)
    (h0 : 0 ≤ bn.height) (hlt : bn.height < 2 ^ 32) :
    bn.indexKey.length = HashSize + 4 ∧
    bn.indexKey.take 4 = beUint32 bn.height.toNat ∧
    (bn.indexKey.drop 4).take (HashSize - 4) = bn.hash.take (HashSize - 4) := by
  have hmod : bn.height % (2 ^ 32 : Int) = bn.height := Int.emod_eq_of_lt h0 hlt
  have hkey := indexKey_eq bn hlen
  rw [hmod] at hkey
  have hlen32 : bn.hash.length = 32 := by simpa [HashSize] using hlen
  have htk : (bn.hash.take (HashSize - 4)).length = HashSize - 4 := by
    simp [List.length_take, hlen]
  refine ⟨?_, ?_, ?_⟩
  · simp [hkey, beUint32, htk, HashSize]
    omega
  · simp [hkey, beUint32]
  · simp only [hkey, beUint32, HashSize] at htk ⊢
    simp only [List.cons_append, List.nil_append, List.drop_succ_cons, List.drop_zero]
    rw [List.take_append_of_le_length (by omega)]
    simp [List.take_take]

/-- Witness for C7: the tip of the three-node chain. -/
theorem indexKey_layout_witness :
    chain2.hash.length = HashSize ∧
    (chain2.indexKey.length = HashSize + 4 ∧
     chain2.indexKey.take 4 = beUint32 chain2.height.toNat ∧
     (chain2.indexKey.drop 4).take (HashSize - 4) = chain2.hash.take (HashSize - 4)) :=
  ⟨by decide, indexKey_layout chain2 (by decide) (by decide) (by decide)⟩

/-! ## Theorems: kayak mock transport -/

/-- C8: in one iteration of the `sendRequest` receive loop, a response whose ID
differs from the caller's request ID is re-enqueued onto the shared wait queue,
unless that ID is in the give-up set, in which case the response is dropped
from the queue (and the ID removed from the set) rather than delivered; and
when the caller's cancellation token fires, the caller's request ID is added to
the give-up set (so it is contained there afterwards) and the token's error is
returned as the call's result. -/
theorem sendRequestStep_spec (reqID : Nat) (gu : List Nat) (res : MockResponse)
    (rest wq : List MockResponse) (e : String) :
    ((res.responseID == reqID) = false → gu.contains res.responseID = false →
      sendRequestStep reqID ⟨res :: rest, gu⟩ .recv = (⟨rest ++ [res], gu⟩, .cont)) ∧
    ((res.responseID == reqID) = false → gu.contains res.responseID = true →
      sendRequestStep reqID ⟨res :: rest, gu⟩ .recv =
        (⟨rest, gu.erase res.responseID⟩, .cont)) ∧
    (sendRequestStep reqID ⟨wq, gu⟩ (.ctxDone e) =
      (⟨wq, giveUpInsert reqID gu⟩, .ret none (some e)) ∧
     (giveUpInsert reqID gu).contains reqID = true) := by
  refine ⟨fun hne hgu => ?_, fun hne hgu => ?_, rfl, ?_⟩
  · have hne' : res.responseID ≠ reqID := by simpa using hne
    have hgu' : res.responseID ∉ gu := by simpa using hgu
    simp [sendRequestStep, hne', hgu']
  · have hne' : res.responseID ≠ reqID := by simpa using hne
    have hgu' : res.responseID ∈ gu := by simpa using hgu
    simp [sendRequestStep, hne', hgu']
  · by_cases hc : reqID ∈ gu
    · simp [giveUpInsert, hc]
    · simp [giveUpInsert, hc]

/-- Witness for C8: response 7 arrives while caller 5 waits; 7 is in the
give-up set, so the response is dropped; and cancellation marks ID 5. -/
theorem sendRequestStep_spec_witness :
    ((⟨7, 42, none⟩ : MockResponse).responseID == 5) = false ∧
    [7].contains (⟨7, 42, none⟩ : MockResponse).responseID = true ∧
    sendRequestStep 5 ⟨[⟨7, 42, none⟩], [7]⟩ .recv = (⟨[], []⟩, .cont) ∧
    sendRequestStep 5 ⟨[], [7]⟩ (.ctxDone "context deadline exceeded") =
      (⟨[], giveUpInsert 5 [7]⟩, .ret none (some "context deadline exceeded")) :=
  ⟨rfl, rfl,
   (sendRequestStep_spec 5 [7] ⟨7, 42, none⟩ [] [] "context deadline exceeded").2.1 rfl rfl,
   (sendRequestStep_spec 5 [7] ⟨7, 42, none⟩ [] [] "context deadline exceeded").2.2.1⟩

/-! ## Theorems: twopc coordinator (modelled from the spec) -/

/-- Helper: `firstErr` of a list of all-successful results is `none`. -/
theorem firstErr_all_none (rs : List (Option GoErr)) (h : ∀ r ∈ rs, r = none) :
    firstErr rs = none := by
  induction rs with
  | nil => rfl
  | cons r rest ih =>
    have hr := h r (by simp)
    subst hr
    exact ih (fun x hx => h x (by simp [hx]))

/-- C5: when every worker's `Prepare` succeeds and the `beforeCommit` hook
fails, `Put` returns exactly the hook's error — whatever the `beforeRollback`
hook or the workers' rollbacks return — and a `Rollback` is dispatched to every
worker before returning. -/
theorem put_beforeCommit_error (hooks : TPCHooks) (workers : List TPCWorker) (e : GoErr)
    (hbp : runHook hooks.beforePrepare = none)
    (hprep : ∀ w ∈ workers, w.prepareRes = none)
    (hbc : hooks.beforeCommit = some (some e)) :
    put hooks workers =
      (some e, (List.range workers.length).map TPCEvent.prepare
        ++ (List.range workers.length).map TPCEvent.rollback) ∧
    (∀ i, i < workers.length → TPCEvent.rollback i ∈ (put hooks workers).2) := by
  have hfe : firstErr (workers.map (·.prepareRes)) = none := by
    refine firstErr_all_none _ ?_
    intro r hr
    obtain ⟨w, hw, rfl⟩ := List.mem_map.mp hr
    exact hprep w hw
  have hput : put hooks workers =
      (some e, (List.range workers.length).map TPCEvent.prepare
        ++ (List.range workers.length).map TPCEvent.rollback) := by
    simp only [put, hbp, hfe, hbc]
    simp [runHook]
  refine ⟨hput, fun i hi => ?_⟩
  rw [hput]
  simp only [List.mem_append, List.mem_map, List.mem_range]
  exact Or.inr ⟨i, hi, rfl⟩

/-- Witness for C5: two all-prepare-success workers under a failing
`beforeCommit` hook (and a failing `beforeRollback` hook and a failing worker
rollback, neither of which is surfaced). -/
theorem put_beforeCommit_error_witness :
    runHook hooksBC.beforePrepare = none ∧
    (∀ w ∈ workersOK, w.prepareRes = none) ∧
    (put hooksBC workersOK =
      (some (.dbErr "before commit error"),
       (List.range workersOK.length).map TPCEvent.prepare
         ++ (List.range workersOK.length).map TPCEvent.rollback) ∧
     ∀ i, i < workersOK.length → TPCEvent.rollback i ∈ (put hooksBC workersOK).2) :=
  ⟨rfl, by decide,
   put_beforeCommit_error hooksBC workersOK (.dbErr "before commit error") rfl
     (by decide) rfl⟩

end ThunderDB
